import Mathlib

/-!
Verification of the core text-analysis algorithms of the
SentimentAnalysis repository (`app_for_deployment.py`): the
lexicon-based sentiment scorer `SimpleSentimentAnalyzer.analyze_sentiment`
and the extractive summarizer `SimpleTextSummarizer.generate_summary`.

Python strings are modelled as Lean `String`/`List Char`; Python floats
are modelled as exact rationals (all arithmetic in the program is over
small decimal constants); Python `None` is modelled with `Option`.
-/

namespace SentimentAnalysis

/-- Result dictionary of `analyze_sentiment`:
`{'label': ..., 'confidence': ..., 'polarity': ...}`. -/
structure SentimentResult where
  label : String
  confidence : ℚ
  polarity : ℚ
deriving Repr, DecidableEq

/-- `self.positive_words` from `SimpleSentimentAnalyzer.__init__`. -/
def positive_words : List String :=
  ["good", "great", "excellent", "positive", "support", "agree", "approve",
   "like", "love", "amazing", "wonderful", "fantastic", "perfect",
   "outstanding", "brilliant", "commend", "endorse", "recommend", "beneficial",
   "effective", "successful", "impressive", "satisfactory", "adequate"]

/-- `self.negative_words` from `SimpleSentimentAnalyzer.__init__`. -/
def negative_words : List String :=
  ["bad", "terrible", "awful", "negative", "oppose", "disagree", "disapprove",
   "hate", "dislike", "horrible", "disgusting", "worst", "fail", "problem",
   "issue", "concern", "flawed", "inadequate", "insufficient", "problematic",
   "disappointing", "unsatisfactory", "poor", "weak", "deficient"]

/-- Python `str.lower()`, character by character (ASCII-faithful). -/
def lowerStr (s : String) : String := ⟨s.data.map Char.toLower⟩

/-- Python substring membership `pat in s` on character lists. -/
def isSubstr (pat : List Char) : List Char → Bool
  | [] => pat.isEmpty
  | c :: rest => pat.isPrefixOf (c :: rest) || isSubstr pat rest

/-- `word in text_lower` for strings. -/
def occursIn (word text : String) : Bool := isSubstr word.data text.data

/-- `positive_count = sum(1 for word in self.positive_words if word in text_lower)`. -/
def posCount (t : String) : ℕ :=
  positive_words.countP (fun w => occursIn w (lowerStr t))

/-- `negative_count = sum(1 for word in self.negative_words if word in text_lower)`. -/
def negCount (t : String) : ℕ :=
  negative_words.countP (fun w => occursIn w (lowerStr t))

/-- Python `round(x, 4)`: round to 4 decimal places. -/
def round4 (q : ℚ) : ℚ := (Rat.floor (q * 10000 + 1/2) : ℚ) / 10000

/-- `confidence = min(1.0, 0.5 + abs(positive_count - negative_count) * 0.1)`. -/
def rawConfidence (p n : ℕ) : ℚ := min 1 (1/2 + |(p : ℚ) - (n : ℚ)| * (1/10))

/-- Positive branch: `polarity = min(0.8, 0.3 + (positive_count - negative_count) * 0.1)`. -/
def rawPosPolarity (p n : ℕ) : ℚ := min (8/10) (3/10 + ((p : ℚ) - (n : ℚ)) * (1/10))

/-- Negative branch: `polarity = max(-0.8, -0.3 - (negative_count - positive_count) * 0.1)`. -/
def rawNegPolarity (p n : ℕ) : ℚ := max (-(8/10)) (-(3/10) - ((n : ℚ) - (p : ℚ)) * (1/10))

/-- `SimpleSentimentAnalyzer.analyze_sentiment(text)`.  The argument is an
`Option String` because the Python parameter may be `None`; `if not text`
is true exactly for `None` and the empty string. -/
def analyze_sentiment : Option String → SentimentResult
  | none => ⟨"neutral", 0, 0⟩
  | some t =>
    if t = "" then ⟨"neutral", 0, 0⟩
    else
      let p := posCount t
      let n := negCount t
      if p > n then
        ⟨"positive", round4 (rawConfidence p n), round4 (rawPosPolarity p n)⟩
      else if n > p then
        ⟨"negative", round4 (rawConfidence p n), round4 (rawNegPolarity p n)⟩
      else
        ⟨"neutral", round4 (rawConfidence p n), round4 0⟩

/-! ### Closed forms for the rounded score formulas -/

lemma ratFloor_eq_intFloor (q : ℚ) : Rat.floor q = ⌊q⌋ := rfl

lemma round4_intCast_div_ten (k : ℤ) : round4 ((k : ℚ) / 10) = (k : ℚ) / 10 := by
  unfold round4
  rw [ratFloor_eq_intFloor]
  have h : ((k : ℚ) / 10) * 10000 + 1 / 2 = ((1000 * k : ℤ) : ℚ) + 1 / 2 := by
    push_cast; ring
  rw [h, Int.floor_int_add]
  have h2 : ⌊(1 / 2 : ℚ)⌋ = 0 := by norm_num
  rw [h2]
  push_cast
  ring

lemma round4_zero : round4 0 = 0 := by
  have h : (0 : ℚ) = ((0 : ℤ) : ℚ) / 10 := by norm_num
  rw [h, round4_intCast_div_ten]

lemma round4_rawConfidence (p n : ℕ) :
    round4 (rawConfidence p n) = ((min 10 (5 + |(p : ℤ) - n|) : ℤ) : ℚ) / 10 := by
  unfold rawConfidence
  have h2 : 1 / 2 + |(p : ℚ) - (n : ℚ)| * (1 / 10) =
      ((5 + |(p : ℤ) - n| : ℤ) : ℚ) / 10 := by push_cast; ring
  rw [h2, show (1 : ℚ) = ((10 : ℤ) : ℚ) / 10 by norm_num,
    min_div_div_right (by norm_num : (0 : ℚ) ≤ 10), ← Int.cast_min,
    round4_intCast_div_ten]

lemma round4_rawPosPolarity (p n : ℕ) :
    round4 (rawPosPolarity p n) = ((min 8 (3 + ((p : ℤ) - n)) : ℤ) : ℚ) / 10 := by
  unfold rawPosPolarity
  have h2 : 3 / 10 + ((p : ℚ) - (n : ℚ)) * (1 / 10) =
      ((3 + ((p : ℤ) - n) : ℤ) : ℚ) / 10 := by push_cast; ring
  rw [h2, show (8 / 10 : ℚ) = ((8 : ℤ) : ℚ) / 10 by norm_num,
    min_div_div_right (by norm_num : (0 : ℚ) ≤ 10), ← Int.cast_min,
    round4_intCast_div_ten]

lemma round4_rawNegPolarity (p n : ℕ) :
    round4 (rawNegPolarity p n) = ((max (-8) (-3 - ((n : ℤ) - p)) : ℤ) : ℚ) / 10 := by
  unfold rawNegPolarity
  have h2 : -(3 / 10) - ((n : ℚ) - (p : ℚ)) * (1 / 10) =
      ((-3 - ((n : ℤ) - p) : ℤ) : ℚ) / 10 := by push_cast; ring
  rw [h2, show (-(8 / 10) : ℚ) = ((-8 : ℤ) : ℚ) / 10 by norm_num,
    max_div_div_right (by norm_num : (0 : ℚ) ≤ 10), ← Int.cast_max,
    round4_intCast_div_ten]

lemma round4_rawConfidence_bounds (p n : ℕ) :
    1 / 2 ≤ round4 (rawConfidence p n) ∧ round4 (rawConfidence p n) ≤ 1 := by
  rw [round4_rawConfidence]
  have habs : (0 : ℤ) ≤ |(p : ℤ) - n| := abs_nonneg _
  have hlo : (5 : ℤ) ≤ min 10 (5 + |(p : ℤ) - n|) := le_min (by omega) (by omega)
  have hhi : min 10 (5 + |(p : ℤ) - n|) ≤ 10 := min_le_left _ _
  have hlo' : (5 : ℚ) ≤ ((min 10 (5 + |(p : ℤ) - n|) : ℤ) : ℚ) := by exact_mod_cast hlo
  have hhi' : ((min 10 (5 + |(p : ℤ) - n|) : ℤ) : ℚ) ≤ 10 := by exact_mod_cast hhi
  constructor <;> linarith

lemma round4_rawPosPolarity_bounds (p n : ℕ) (h : n < p) :
    4 / 10 ≤ round4 (rawPosPolarity p n) ∧ round4 (rawPosPolarity p n) ≤ 8 / 10 := by
  rw [round4_rawPosPolarity]
  have hd : (1 : ℤ) ≤ (p : ℤ) - n := by omega
  have hlo : (4 : ℤ) ≤ min 8 (3 + ((p : ℤ) - n)) := le_min (by omega) (by omega)
  have hhi : min 8 (3 + ((p : ℤ) - n)) ≤ 8 := min_le_left _ _
  have hlo' : (4 : ℚ) ≤ ((min 8 (3 + ((p : ℤ) - n)) : ℤ) : ℚ) := by exact_mod_cast hlo
  have hhi' : ((min 8 (3 + ((p : ℤ) - n)) : ℤ) : ℚ) ≤ 8 := by exact_mod_cast hhi
  constructor <;> linarith

lemma round4_rawNegPolarity_bounds (p n : ℕ) (h : p < n) :
    -(8 / 10) ≤ round4 (rawNegPolarity p n) ∧ round4 (rawNegPolarity p n) ≤ -(4 / 10) := by
  rw [round4_rawNegPolarity]
  have hd : (1 : ℤ) ≤ (n : ℤ) - p := by omega
  have hhi : max (-8) (-3 - ((n : ℤ) - p)) ≤ -4 := max_le (by omega) (by omega)
  have hlo : (-8 : ℤ) ≤ max (-8) (-3 - ((n : ℤ) - p)) := le_max_left _ _
  have hhi' : ((max (-8) (-3 - ((n : ℤ) - p)) : ℤ) : ℚ) ≤ -4 := by exact_mod_cast hhi
  have hlo' : (-8 : ℚ) ≤ ((max (-8) (-3 - ((n : ℤ) - p)) : ℤ) : ℚ) := by exact_mod_cast hlo
  constructor <;> linarith

/-- Case analysis on `analyze_sentiment`: the result is the early-exit
neutral result, or one of the three scored branches with its bounds. -/
lemma analyze_sentiment_shape (t : Option String) :
    (analyze_sentiment t).label = "neutral" ∧ (analyze_sentiment t).polarity = 0 ∧
      (analyze_sentiment t).confidence = 0 ∨
    (analyze_sentiment t).label = "neutral" ∧ (analyze_sentiment t).polarity = 0 ∧
      1 / 2 ≤ (analyze_sentiment t).confidence ∧ (analyze_sentiment t).confidence ≤ 1 ∨
    (analyze_sentiment t).label = "positive" ∧
      4 / 10 ≤ (analyze_sentiment t).polarity ∧ (analyze_sentiment t).polarity ≤ 8 / 10 ∧
      1 / 2 ≤ (analyze_sentiment t).confidence ∧ (analyze_sentiment t).confidence ≤ 1 ∨
    (analyze_sentiment t).label = "negative" ∧
      -(8 / 10) ≤ (analyze_sentiment t).polarity ∧
      (analyze_sentiment t).polarity ≤ -(4 / 10) ∧
      1 / 2 ≤ (analyze_sentiment t).confidence ∧ (analyze_sentiment t).confidence ≤ 1 := by
  match t with
  | none => exact Or.inl ⟨rfl, rfl, rfl⟩
  | some s =>
    by_cases hs : s = ""
    · subst hs
      exact Or.inl ⟨rfl, rfl, rfl⟩
    · simp only [analyze_sentiment, if_neg hs]
      rcases Nat.lt_trichotomy (negCount s) (posCount s) with h | h | h
      · rw [if_pos (by exact h)]
        exact Or.inr (Or.inr (Or.inl ⟨rfl, (round4_rawPosPolarity_bounds _ _ h).1,
          (round4_rawPosPolarity_bounds _ _ h).2,
          (round4_rawConfidence_bounds _ _).1, (round4_rawConfidence_bounds _ _).2⟩))
      · rw [if_neg (by omega), if_neg (by omega)]
        exact Or.inr (Or.inl ⟨rfl, round4_zero,
          (round4_rawConfidence_bounds _ _).1, (round4_rawConfidence_bounds _ _).2⟩)
      · rw [if_neg (by omega), if_pos (by exact h)]
        exact Or.inr (Or.inr (Or.inr ⟨rfl, (round4_rawNegPolarity_bounds _ _ h).1,
          (round4_rawNegPolarity_bounds _ _ h).2,
          (round4_rawConfidence_bounds _ _).1, (round4_rawConfidence_bounds _ _).2⟩))

/-! ### The extractive summarizer `SimpleTextSummarizer` -/

/-- `self.stop_words` from `SimpleTextSummarizer.__init__` (a set; only
membership is used). -/
def stop_words : List (List Char) :=
  (["the", "a", "an", "and", "or", "but", "in", "on", "at", "to", "for",
    "of", "with", "by", "is", "are", "was", "were", "be", "been", "being",
    "this", "that", "these", "those", "i", "you", "he", "she", "it", "we",
    "they"]).map String.data

/-- Python `text.split('.')`: split on the literal period character. -/
def splitOnDot : List Char → List (List Char)
  | [] => [[]]
  | c :: rest =>
    if c = '.' then [] :: splitOnDot rest
    else
      match splitOnDot rest with
      | [] => [[c]]
      | p :: ps => (c :: p) :: ps

/-- ASCII whitespace, for Python `str.strip()`. -/
def isSpaceChar (c : Char) : Bool :=
  c = ' ' || c = '\t' || c = '\n' || c = '\r' || c = '\x0B' || c = '\x0C'

/-- Python `s.strip()`: drop whitespace from both ends. -/
def strip (s : List Char) : List Char :=
  ((s.dropWhile isSpaceChar).reverse.dropWhile isSpaceChar).reverse

/-- `sentences = [s.strip() for s in text.split('.') if len(s.strip()) > 20]`. -/
def survivors (t : String) : List (List Char) :=
  ((splitOnDot t.data).map strip).filter (fun s => decide (20 < s.length))

/-- A `\w` word character (ASCII): letter, digit, or underscore. -/
def isWordChar (c : Char) : Bool :=
  ('a' ≤ c && c ≤ 'z') || ('A' ≤ c && c ≤ 'Z') || ('0' ≤ c && c ≤ '9') || c = '_'

/-- Helper for `re.findall(r'\w+', s)`; `acc` holds the characters of the
current word-character run in reverse. -/
def findallAux (acc : List Char) : List Char → List (List Char)
  | [] => if acc.isEmpty then [] else [acc.reverse]
  | c :: rest =>
    if isWordChar c then findallAux (c :: acc) rest
    else if acc.isEmpty then findallAux [] rest
    else acc.reverse :: findallAux [] rest

/-- `re.findall(r'\w+', s)`: maximal runs of word characters. -/
def findallWords (s : List Char) : List (List Char) := findallAux [] s

/-- `words = re.findall(r'\w+', sentence.lower())`. -/
def sentenceWords (s : List Char) : List (List Char) :=
  findallWords (s.map Char.toLower)

/-- The `word_freq` Counter with `get(word, 0)` semantics: a word is
counted over all surviving sentences when it is not a stop word and is
longer than 3 characters; every other word has frequency 0. -/
def wordFreq (sentences : List (List Char)) (w : List Char) : ℕ :=
  if stop_words.contains w || decide (w.length ≤ 3) then 0
  else (sentences.flatMap sentenceWords).count w

/-- `score = sum(word_freq.get(word, 0) for word in words if word not in self.stop_words)`. -/
def sentenceScore (sentences : List (List Char)) (s : List Char) : ℕ :=
  (((sentenceWords s).filter (fun w => !stop_words.contains w)).map
    (wordFreq sentences)).sum

/-- `sentence_scores`: the `(score, i, sentence)` triples from
`enumerate(sentences)`. -/
def scoredSentences (t : String) : List (ℕ × ℕ × List Char) :=
  (survivors t).enum.map (fun p => (sentenceScore (survivors t) p.2, p.1, p.2))

/-- Python `<=` on strings: lexicographic by code point. -/
def charsLE : List Char → List Char → Bool
  | [], _ => true
  | _ :: _, [] => false
  | a :: as, b :: bs =>
    decide (a.toNat < b.toNat) || (decide (a.toNat = b.toNat) && charsLE as bs)

/-- Python `<=` on `(score, index, sentence)` tuples: lexicographic. -/
def tripleLE (x y : ℕ × ℕ × List Char) : Bool :=
  decide (x.1 < y.1) || (decide (x.1 = y.1) &&
    (decide (x.2.1 < y.2.1) || (decide (x.2.1 = y.2.1) && charsLE x.2.2 y.2.2)))

/-- `sentence_scores.sort(reverse=True)`: stable sort, descending in the
tuple order. -/
def rankedSentences (t : String) : List (ℕ × ℕ × List Char) :=
  (scoredSentences t).mergeSort (fun a b => tripleLE b a)

/-- `top_sentences = sorted(sentence_scores[:max_sentences], key=lambda x: x[1])`. -/
def topSentences (t : String) (max_sentences : ℕ) : List (ℕ × ℕ × List Char) :=
  ((rankedSentences t).take max_sentences).mergeSort
    (fun a b => decide (a.2.1 ≤ b.2.1))

/-- `'. '.join([sentence for _, _, sentence in top_sentences]) + '.'`. -/
def joinSentences (ss : List (List Char)) : List Char :=
  List.intercalate ['.', ' '] ss ++ ['.']

/-- `SimpleTextSummarizer.generate_summary(text, max_sentences=3)`.  The
text is an `Option String` because the Python parameter may be `None`;
`if not text` is true exactly for `None` and the empty string.
`max_sentences` is modelled as a natural number (the spec requires a
positive integer; the boundary case 0 is also representable). -/
def generate_summary (text : Option String) (max_sentences : ℕ) : String :=
  match text with
  | none => "No text provided for summarization."
  | some t =>
    if t = "" then "No text provided for summarization."
    else if (survivors t).length ≤ max_sentences then t
    else ⟨joinSentences ((topSentences t max_sentences).map (fun p => p.2.2))⟩

/-! ### Properties of the sorting comparators -/

lemma charsLE_total : ∀ a b : List Char, (charsLE a b || charsLE b a) = true
  | [], [] => rfl
  | [], _ :: _ => rfl
  | _ :: _, [] => rfl
  | a :: as, b :: bs => by
    simp only [charsLE, Bool.or_eq_true, Bool.and_eq_true, decide_eq_true_eq]
    rcases Nat.lt_trichotomy a.toNat b.toNat with h | h | h
    · exact Or.inl (Or.inl h)
    · have hrec := charsLE_total as bs
      simp only [Bool.or_eq_true] at hrec
      rcases hrec with hr | hr
      · exact Or.inl (Or.inr ⟨h, hr⟩)
      · exact Or.inr (Or.inr ⟨h.symm, hr⟩)
    · exact Or.inr (Or.inl h)

lemma charsLE_trans : ∀ a b c : List Char,
    charsLE a b = true → charsLE b c = true → charsLE a c = true
  | [], _, _ => fun _ _ => rfl
  | _ :: _, [], _ => fun h _ => by simp [charsLE] at h
  | _ :: _, _ :: _, [] => fun _ h => by simp [charsLE] at h
  | a :: as, b :: bs, c :: cs => by
    simp only [charsLE, Bool.or_eq_true, Bool.and_eq_true, decide_eq_true_eq]
    rintro (h1 | ⟨h1, h1'⟩) (h2 | ⟨h2, h2'⟩)
    · exact Or.inl (h1.trans h2)
    · exact Or.inl (by omega)
    · exact Or.inl (by omega)
    · exact Or.inr ⟨h1.trans h2, charsLE_trans as bs cs h1' h2'⟩

lemma tripleLE_total (x y : ℕ × ℕ × List Char) : (tripleLE x y || tripleLE y x) = true := by
  obtain ⟨s1, i1, t1⟩ := x
  obtain ⟨s2, i2, t2⟩ := y
  simp only [tripleLE, Bool.or_eq_true, Bool.and_eq_true, decide_eq_true_eq]
  rcases Nat.lt_trichotomy s1 s2 with h | h | h
  · exact Or.inl (Or.inl h)
  · rcases Nat.lt_trichotomy i1 i2 with h2 | h2 | h2
    · exact Or.inl (Or.inr ⟨h, Or.inl h2⟩)
    · have hc := charsLE_total t1 t2
      simp only [Bool.or_eq_true] at hc
      rcases hc with hc | hc
      · exact Or.inl (Or.inr ⟨h, Or.inr ⟨h2, hc⟩⟩)
      · exact Or.inr (Or.inr ⟨h.symm, Or.inr ⟨h2.symm, hc⟩⟩)
    · exact Or.inr (Or.inr ⟨h.symm, Or.inl h2⟩)
  · exact Or.inr (Or.inl h)

lemma tripleLE_trans (x y z : ℕ × ℕ × List Char)
    (hxy : tripleLE x y = true) (hyz : tripleLE y z = true) : tripleLE x z = true := by
  obtain ⟨s1, i1, t1⟩ := x
  obtain ⟨s2, i2, t2⟩ := y
  obtain ⟨s3, i3, t3⟩ := z
  simp only [tripleLE, Bool.or_eq_true, Bool.and_eq_true, decide_eq_true_eq] at hxy hyz ⊢
  rcases hxy with h1 | ⟨h1, h1'⟩
  · rcases hyz with h2 | ⟨h2, _⟩
    · exact Or.inl (h1.trans h2)
    · exact Or.inl (by omega)
  · rcases hyz with h2 | ⟨h2, h2'⟩
    · exact Or.inl (by omega)
    · refine Or.inr ⟨h1.trans h2, ?_⟩
      rcases h1' with h1' | ⟨h1', h1''⟩
      · rcases h2' with h2' | ⟨h2', _⟩
        · exact Or.inl (h1'.trans h2')
        · exact Or.inl (by omega)
      · rcases h2' with h2' | ⟨h2', h2''⟩
        · exact Or.inl (by omega)
        · exact Or.inr ⟨h1'.trans h2', charsLE_trans t1 t2 t3 h1'' h2''⟩

lemma idxLE_trans (a b c : ℕ × ℕ × List Char)
    (hab : decide (a.2.1 ≤ b.2.1) = true) (hbc : decide (b.2.1 ≤ c.2.1) = true) :
    decide (a.2.1 ≤ c.2.1) = true := by
  simp only [decide_eq_true_eq] at hab hbc ⊢
  omega

lemma idxLE_total (a b : ℕ × ℕ × List Char) :
    (decide (a.2.1 ≤ b.2.1) || decide (b.2.1 ≤ a.2.1)) = true := by
  simp only [Bool.or_eq_true, decide_eq_true_eq]
  omega

/-! ### Positions in the ranking -/

lemma scoredSentences_idx_map (t : String) :
    (scoredSentences t).map (fun p => p.2.1) = List.range (survivors t).length := by
  unfold scoredSentences
  rw [List.map_map]
  have h : ((fun p : ℕ × ℕ × List Char => p.2.1) ∘
      (fun p : ℕ × List Char => (sentenceScore (survivors t) p.2, p.1, p.2))) =
      Prod.fst := rfl
  rw [h, List.enum_map_fst]

lemma rankedSentences_idx_nodup (t : String) :
    ((rankedSentences t).map (fun p => p.2.1)).Nodup := by
  have hperm : (rankedSentences t).Perm (scoredSentences t) := List.mergeSort_perm _ _
  rw [(hperm.map (fun p => p.2.1)).nodup_iff, scoredSentences_idx_map]
  exact List.nodup_range _

lemma topSentences_idx_nodup (t : String) (k : ℕ) :
    ((topSentences t k).map (fun p => p.2.1)).Nodup := by
  have hperm : (topSentences t k).Perm ((rankedSentences t).take k) :=
    List.mergeSort_perm _ _
  rw [(hperm.map (fun p => p.2.1)).nodup_iff]
  exact ((List.take_sublist k _).map _).nodup (rankedSentences_idx_nodup t)

/-- The selected subset is re-sorted by original index, and the indices are
pairwise distinct, so they are strictly increasing. -/
lemma topSentences_idx_strictMono (t : String) (k : ℕ) :
    (topSentences t k).Pairwise (fun a b => a.2.1 < b.2.1) := by
  have hsorted : (topSentences t k).Pairwise
      (fun a b => decide (a.2.1 ≤ b.2.1) = true) :=
    List.sorted_mergeSort idxLE_trans idxLE_total _
  have hne : (topSentences t k).Pairwise (fun a b => a.2.1 ≠ b.2.1) :=
    List.pairwise_map.mp (topSentences_idx_nodup t k)
  refine (hsorted.and hne).imp ?_
  rintro a b ⟨h1, h2⟩
  simp only [decide_eq_true_eq] at h1
  omega

/-- The code's ranking is strictly descending in `(score, index)`: score
descending, and among equal scores index descending. -/
lemma rankedSentences_ordering (t : String) :
    (rankedSentences t).Pairwise
      (fun a b => b.1 < a.1 ∨ (a.1 = b.1 ∧ b.2.1 < a.2.1)) := by
  have hsorted : (rankedSentences t).Pairwise (fun a b => tripleLE b a = true) :=
    List.sorted_mergeSort (fun a b c hab hbc => tripleLE_trans c b a hbc hab)
      (fun a b => by rw [Bool.or_comm]; exact tripleLE_total a b) _
  have hne : (rankedSentences t).Pairwise (fun a b => a.2.1 ≠ b.2.1) :=
    List.pairwise_map.mp (rankedSentences_idx_nodup t)
  refine (hsorted.and hne).imp ?_
  rintro a b ⟨h1, h2⟩
  simp only [tripleLE, Bool.or_eq_true, Bool.and_eq_true, decide_eq_true_eq] at h1
  rcases h1 with h | ⟨heq, h⟩
  · exact Or.inl h
  · rcases h with h | ⟨hieq, _⟩
    · exact Or.inr ⟨heq.symm, h⟩
    · exact absurd hieq.symm h2

/-! ### The ranking as the spec words it, for comparison (refinement check) -/

/-- Ranking as the spec claims it: score descending, ties broken by
original index ascending (earlier sentence first).  This follows the
spec's words, not the source, and is compared with the code's
`rankedSentences`. -/
def rankedSentencesSpec (t : String) : List (ℕ × ℕ × List Char) :=
  (scoredSentences t).mergeSort
    (fun a b => decide (b.1 < a.1) || (decide (a.1 = b.1) && decide (a.2.1 ≤ b.2.1)))

/-- Top-`k` selection under the spec's claimed ranking, re-sorted by
original index. -/
def topSentencesSpec (t : String) (k : ℕ) : List (ℕ × ℕ × List Char) :=
  ((rankedSentencesSpec t).take k).mergeSort (fun a b => decide (a.2.1 ≤ b.2.1))

/-- Concrete corpus of three qualifying sentences whose scores all tie
(fifteen pairwise-distinct non-stop words of length 5, five per
sentence, each with corpus frequency 1, so every sentence scores 5). -/
def crossTieText : String :=
  "alpha bravo creek delta echos.fghij klmno pqrst uvwxy zabcd.bcdef ghijk lmnop qrstu vwxyz"

/-- Python substring membership agrees with list-infix. -/
lemma isSubstr_correct (p : List Char) : ∀ s : List Char, isSubstr p s = true ↔ p <:+: s
  | [] => by
    simp only [isSubstr, List.isEmpty_iff, List.infix_nil]
  | c :: rest => by
    simp only [isSubstr, Bool.or_eq_true]
    constructor
    · rintro (h | h)
      · exact (List.isPrefixOf_iff_prefix.mp h).isInfix
      · exact ((isSubstr_correct p rest).mp h).trans (List.suffix_cons c rest).isInfix
    · intro h
      rcases List.infix_cons_iff.mp h with h | h
      · exact Or.inl (List.isPrefixOf_iff_prefix.mpr h)
      · exact Or.inr ((isSubstr_correct p rest).mpr h)

end SentimentAnalysis

namespace SentimentAnalysis

/-! ### The claims -/

unseal List.merge List.mergeSort in
/-- C1 is false on the code: at `crossTieText` all three sentences score 5,
yet the code ranks them with indices `[2, 1, 0]` and selects sentences 1
and 2, while the claimed (score descending, index ascending) ranking
would select sentences 0 and 1 — the tie goes to the LATER sentence, and
the produced summary differs from the claimed one. -/
theorem claim1_counterexample :
    (scoredSentences crossTieText).map (fun p => p.1) = [5, 5, 5] ∧
    (rankedSentences crossTieText).map (fun p => p.2.1) = [2, 1, 0] ∧
    (rankedSentencesSpec crossTieText).map (fun p => p.2.1) = [0, 1, 2] ∧
    (topSentences crossTieText 2).map (fun p => p.2.1) = [1, 2] ∧
    (topSentencesSpec crossTieText 2).map (fun p => p.2.1) = [0, 1] ∧
    generate_summary (some crossTieText) 2 ≠
      ⟨joinSentences ((topSentencesSpec crossTieText 2).map (fun p => p.2.2))⟩ := by
  exact ⟨by decide, by decide, by decide, by decide, by decide, by decide⟩

/-- C1 (amended): the ranking used to pick the top `max_sentences`
sentences orders sentences by score descending and, among sentences with
equal score, by original index DESCENDING, so a tie in score is resolved
in favor of the LATER sentence. -/
theorem claim1_amended_tie_favors_later (t : String) :
    (rankedSentences t).Perm (scoredSentences t) ∧
    (rankedSentences t).Pairwise
      (fun a b => b.1 < a.1 ∨ (a.1 = b.1 ∧ b.2.1 < a.2.1)) :=
  ⟨List.mergeSort_perm _ _, rankedSentences_ordering t⟩

/-- C9: the lexicon is matched by substring containment and four negative
entries contain a positive entry as a substring, so any text matching
such a negative entry also matches the contained positive entry; a text
with exactly one positive and one negative hit is scored neutral with
polarity 0 and confidence 0.5, and in particular `analyze("dislike")` is
neutral, not negative. -/
theorem claim9_substring_containment_ties :
    (∀ t : String, isSubstr "dislike".data t.data = true →
      isSubstr "like".data t.data = true) ∧
    (∀ t : String, isSubstr "disagree".data t.data = true →
      isSubstr "agree".data t.data = true) ∧
    (∀ t : String, isSubstr "disapprove".data t.data = true →
      isSubstr "approve".data t.data = true) ∧
    (∀ t : String, isSubstr "unsatisfactory".data t.data = true →
      isSubstr "satisfactory".data t.data = true) ∧
    (∀ t : String, t ≠ "" → posCount t = 1 → negCount t = 1 →
      analyze_sentiment (some t) = ⟨"neutral", 1 / 2, 0⟩) ∧
    posCount "dislike" = 1 ∧ negCount "dislike" = 1 ∧
    analyze_sentiment (some "dislike") = ⟨"neutral", 1 / 2, 0⟩ := by
  have hsub : ∀ p q : List Char, isSubstr p q = true →
      ∀ t : String, isSubstr q t.data = true → isSubstr p t.data = true := by
    intro p q hpq t hqt
    exact (isSubstr_correct p t.data).mpr
      (((isSubstr_correct p q).mp hpq).trans ((isSubstr_correct q t.data).mp hqt))
  have htie : ∀ t : String, t ≠ "" → posCount t = 1 → negCount t = 1 →
      analyze_sentiment (some t) = ⟨"neutral", 1 / 2, 0⟩ := by
    intro t ht hp hn
    have h : analyze_sentiment (some t) =
        ⟨"neutral", round4 (rawConfidence 1 1), round4 0⟩ := by
      simp only [analyze_sentiment]
      rw [if_neg ht, hp, hn, if_neg (by norm_num), if_neg (by norm_num)]
    rw [h, round4_rawConfidence, round4_zero]
    simp only [SentimentResult.mk.injEq]
    norm_num
  refine ⟨hsub _ _ (by decide), hsub _ _ (by decide), hsub _ _ (by decide),
    hsub _ _ (by decide), htie, by decide, by decide,
    htie "dislike" (by decide) (by decide) (by decide)⟩

/-- Witness for C9 at the concrete inputs "i dislike this" and "dislike". -/
theorem claim9_witness :
    isSubstr "like".data "i dislike this".data = true ∧
    analyze_sentiment (some "dislike") = ⟨"neutral", 1 / 2, 0⟩ :=
  ⟨claim9_substring_containment_ties.1 "i dislike this" (by decide),
   claim9_substring_containment_ties.2.2.2.2.1 "dislike" (by decide) (by decide)
     (by decide)⟩

/-- C2: for every input (including `None`), the label is `positive` iff
the polarity is strictly positive, `negative` iff strictly negative, and
`neutral` iff zero. -/
theorem claim2_label_iff_polarity_sign (t : Option String) :
    ((analyze_sentiment t).label = "positive" ↔ 0 < (analyze_sentiment t).polarity) ∧
    ((analyze_sentiment t).label = "negative" ↔ (analyze_sentiment t).polarity < 0) ∧
    ((analyze_sentiment t).label = "neutral" ↔ (analyze_sentiment t).polarity = 0) := by
  rcases analyze_sentiment_shape t with ⟨hl, hp, _⟩ | ⟨hl, hp, _⟩ |
    ⟨hl, hp1, hp2, _⟩ | ⟨hl, hp1, hp2, _⟩
  · rw [hl, hp]
    exact ⟨⟨fun h => absurd h (by decide), fun h => absurd h (lt_irrefl 0)⟩,
           ⟨fun h => absurd h (by decide), fun h => absurd h (lt_irrefl 0)⟩,
           ⟨fun _ => rfl, fun _ => rfl⟩⟩
  · rw [hl, hp]
    exact ⟨⟨fun h => absurd h (by decide), fun h => absurd h (lt_irrefl 0)⟩,
           ⟨fun h => absurd h (by decide), fun h => absurd h (lt_irrefl 0)⟩,
           ⟨fun _ => rfl, fun _ => rfl⟩⟩
  · rw [hl]
    have hpos : 0 < (analyze_sentiment t).polarity := by linarith
    exact ⟨⟨fun _ => hpos, fun _ => rfl⟩,
           ⟨fun h => absurd h (by decide), fun h => absurd h (by linarith)⟩,
           ⟨fun h => absurd h (by decide), fun h => absurd h (ne_of_gt hpos)⟩⟩
  · rw [hl]
    have hneg : (analyze_sentiment t).polarity < 0 := by linarith
    exact ⟨⟨fun h => absurd h (by decide), fun h => absurd h (by linarith)⟩,
           ⟨fun _ => hneg, fun _ => rfl⟩,
           ⟨fun h => absurd h (by decide), fun h => absurd h (ne_of_lt hneg)⟩⟩

/-- C3: for every input, the confidence lies in `[0, 1]` and the polarity
lies in `[-0.8, 0.8]` (0.8 = 8/10 as an exact rational). -/
theorem claim3_confidence_polarity_ranges (t : Option String) :
    0 ≤ (analyze_sentiment t).confidence ∧ (analyze_sentiment t).confidence ≤ 1 ∧
    -(8 / 10) ≤ (analyze_sentiment t).polarity ∧
    (analyze_sentiment t).polarity ≤ 8 / 10 := by
  rcases analyze_sentiment_shape t with ⟨_, hp, hc⟩ | ⟨_, hp, hc1, hc2⟩ |
    ⟨_, hp1, hp2, hc1, hc2⟩ | ⟨_, hp1, hp2, hc1, hc2⟩
  · exact ⟨by linarith, by linarith, by linarith, by linarith⟩
  · exact ⟨by linarith, by linarith, by linarith, by linarith⟩
  · exact ⟨by linarith, by linarith, by linarith, by linarith⟩
  · exact ⟨by linarith, by linarith, by linarith, by linarith⟩

/-- C4: the empty string and `None` both produce exactly
`{label: neutral, confidence: 0.0, polarity: 0.0}` from the early return,
with confidence 0.0 rather than the formula's 0.5 baseline. -/
theorem claim4_empty_and_null_input :
    analyze_sentiment none = ⟨"neutral", 0, 0⟩ ∧
    analyze_sentiment (some "") = ⟨"neutral", 0, 0⟩ ∧
    (0 : ℚ) ≠ 1 / 2 :=
  ⟨rfl, rfl, by norm_num⟩

/-- C5: on "This is great and wonderful" exactly two positive and zero
negative lexicon entries match, giving the positive label with polarity
0.5 and confidence 0.7. -/
theorem claim5_great_and_wonderful :
    posCount "This is great and wonderful" = 2 ∧
    negCount "This is great and wonderful" = 0 ∧
    analyze_sentiment (some "This is great and wonderful") =
      ⟨"positive", 7 / 10, 5 / 10⟩ := by
  refine ⟨by decide, by decide, ?_⟩
  have h : analyze_sentiment (some "This is great and wonderful") =
      ⟨"positive", round4 (rawConfidence 2 0), round4 (rawPosPolarity 2 0)⟩ := by
    simp only [analyze_sentiment]
    rw [if_neg (by decide), show posCount "This is great and wonderful" = 2 by decide,
      show negCount "This is great and wonderful" = 0 by decide, if_pos (by norm_num)]
  rw [h, round4_rawConfidence, round4_rawPosPolarity]
  simp only [SentimentResult.mk.injEq]
  norm_num

/-- C6: the summarizer splits on the literal period, trims each piece,
keeps only pieces whose trimmed length exceeds 20, and when the surviving
count is at most `max_sentences` it returns the original text unchanged. -/
theorem claim6_short_circuit_returns_input (t : String) (k : ℕ) (ht : t ≠ "")
    (hlen : (survivors t).length ≤ k) :
    survivors t =
      ((splitOnDot t.data).map strip).filter (fun s => decide (20 < s.length)) ∧
    generate_summary (some t) k = t :=
  ⟨rfl, by simp only [generate_summary, if_neg ht, if_pos hlen]⟩

/-- Witness for C6 at a concrete input with no surviving sentence. -/
theorem claim6_witness :
    ("tiny. bits" : String) ≠ "" ∧ (survivors "tiny. bits").length ≤ 3 ∧
    generate_summary (some "tiny. bits") 3 = "tiny. bits" :=
  ⟨by decide, by decide,
   (claim6_short_circuit_returns_input "tiny. bits" 3 (by decide) (by decide)).2⟩

/-- C7: when more than `max_sentences` sentences survive, the selected
sentences are re-sorted by original index, so the output's original
indices are strictly increasing and the summary joins them in document
order. -/
theorem claim7_summary_in_document_order (t : String) (k : ℕ) (ht : t ≠ "")
    (hk : k < (survivors t).length) :
    (topSentences t k).Pairwise (fun a b => a.2.1 < b.2.1) ∧
    generate_summary (some t) k =
      ⟨joinSentences ((topSentences t k).map (fun p => p.2.2))⟩ :=
  ⟨topSentences_idx_strictMono t k, by
    have h2 : ¬(survivors t).length ≤ k := by omega
    simp only [generate_summary, if_neg ht, if_neg h2]⟩

/-- Witness for C7 at a concrete three-sentence corpus with `k = 2`. -/
theorem claim7_witness :
    crossTieText ≠ "" ∧ 2 < (survivors crossTieText).length ∧
    (topSentences crossTieText 2).Pairwise (fun a b => a.2.1 < b.2.1) :=
  ⟨by decide, by decide,
   (claim7_summary_in_document_order crossTieText 2 (by decide) (by decide)).1⟩

/-- C8: empty or null input yields the fixed sentinel string, which is
not the empty string. -/
theorem claim8_sentinel_on_empty (k : ℕ) :
    generate_summary none k = "No text provided for summarization." ∧
    generate_summary (some "") k = "No text provided for summarization." ∧
    ("No text provided for summarization." : String) ≠ "" :=
  ⟨rfl, rfl, by decide⟩

/-- C10: with `max_sentences = 0` and at least one surviving sentence,
the full ranking path selects zero sentences and returns the
single-character string ".". -/
theorem claim10_zero_max_sentences (t : String) (ht : t ≠ "")
    (hs : survivors t ≠ []) :
    generate_summary (some t) 0 = "." := by
  have hlen : ¬(survivors t).length ≤ 0 := by
    intro h
    exact hs (List.eq_nil_of_length_eq_zero (Nat.le_zero.mp h))
  simp only [generate_summary, if_neg ht, if_neg hlen]
  have htop : topSentences t 0 = [] := by
    unfold topSentences
    rw [List.take_zero, List.mergeSort_nil]
  rw [htop]
  rfl

/-- Witness for C10 at a concrete one-sentence input. -/
theorem claim10_witness :
    survivors "this is a sufficiently long sentence" ≠ [] ∧
    generate_summary (some "this is a sufficiently long sentence") 0 = "." :=
  ⟨by decide,
   claim10_zero_max_sentences "this is a sufficiently long sentence"
     (by decide) (by decide)⟩

end SentimentAnalysis
